import Mathlib

/-!
# Clio reporting server: command tables, TLS WebSocket session, offer detection

A shallow embedding of three source files of the repository

* `src/server/Handlers.h`: the static tables `forwardCommands` and `commandMap`;
* `src/reporting/server/SslWsSession.h`: the classes `SslWsSession` and `SslWsUpgrader`;
* `src/src/backend/DBHelpers.h`: the templates `isOffer` and `isOfferHex`;

followed by theorems about them.  Asynchronous operations are modelled by explicit
bookkeeping: a handler that calls `async_read` or `async_write` records an outstanding
operation in the state, and a completion event removes it and runs the handler.
-/

set_option linter.unusedVariables false

namespace Clio

/-! ## Handlers.h : the two static command tables -/

/-- The enumeration `RPCCommand` of Handlers.h, enumerators in source order. -/
inductive RPCCommand
  | tx
  | account_tx
  | ledger
  | account_info
  | ledger_data
  | book_offers
  | ledger_range
  | ledger_entry
  | account_channels
  | account_lines
  | account_currencies
  | account_offers
  | account_objects
  | channel_authorize
  | channel_verify
  | subscribe
  | unsubscribe
  | server_info
  deriving DecidableEq, Repr

/-- The identifier of each enumerator of `RPCCommand`, as spelled in Handlers.h. -/
def RPCCommand.ident : RPCCommand → String
  | .tx => "tx"
  | .account_tx => "account_tx"
  | .ledger => "ledger"
  | .account_info => "account_info"
  | .ledger_data => "ledger_data"
  | .book_offers => "book_offers"
  | .ledger_range => "ledger_range"
  | .ledger_entry => "ledger_entry"
  | .account_channels => "account_channels"
  | .account_lines => "account_lines"
  | .account_currencies => "account_currencies"
  | .account_offers => "account_offers"
  | .account_objects => "account_objects"
  | .channel_authorize => "channel_authorize"
  | .channel_verify => "channel_verify"
  | .subscribe => "subscribe"
  | .unsubscribe => "unsubscribe"
  | .server_info => "server_info"

/-- The set `forwardCommands` of Handlers.h, as the list of its initialisers.
Membership in the `std::unordered_set` is membership in this list. -/
def forwardCommands : List String :=
  ["submit",
   "submit_multisigned",
   "fee",
   "path_find",
   "ripple_path_find",
   "manifest"]

/-- The map `commandMap` of Handlers.h, as the list of its initialisers in source order.
A `std::unordered_map` built from an initialiser list keeps the first entry of a key, so
`find` on the map is `List.lookup` on this list. -/
def commandMap : List (String × RPCCommand) :=
  [("tx", .tx),
   ("account_tx", .account_tx),
   ("ledger", .ledger),
   ("ledger_range", .ledger_range),
   ("ledger_entry", .ledger_entry),
   ("account_info", .account_info),
   ("ledger_data", .ledger_data),
   ("book_offers", .book_offers),
   ("account_channels", .account_channels),
   ("account_lines", .account_lines),
   ("account_currencies", .account_currencies),
   ("account_offers", .account_offers),
   ("account_objects", .account_objects),
   ("channel_authorize", .channel_authorize),
   ("channel_verify", .channel_verify),
   ("subscribe", .subscribe),
   ("unsubscribe", .unsubscribe),
   ("server_info", .server_info)]

/-- The keys of `commandMap`, in source order. -/
def commandNames : List String := commandMap.map Prod.fst

/-- All names listed by either table: the six of `forwardCommands`, then the keys of
`commandMap`. -/
def knownNames : List String := forwardCommands ++ commandNames

/-- Modelled from the spec: the policy enumeration of the Command Policy Table (section 3),
which Handlers.h does not declare. -/
inductive Policy
  | LocalRead
  | ForwardWrite
  | SubscriptionOp
  | AdminOnly
  | Unknown
  deriving DecidableEq, Repr

/-- Modelled from the spec: the Request Classifier (section 4.2), whose code (the body of
`buildResponse`) is not among the sources.  A name in `forwardCommands` is ForwardWrite; a
name in `commandMap` is SubscriptionOp when it maps to `subscribe` or `unsubscribe` and
LocalRead otherwise; absence from both tables yields Unknown. -/
def classify (name : String) : Policy :=
  if forwardCommands.contains name then Policy.ForwardWrite
  else
    match commandMap.lookup name with
    | some RPCCommand.subscribe => Policy.SubscriptionOp
    | some RPCCommand.unsubscribe => Policy.SubscriptionOp
    | some _ => Policy.LocalRead
    | none => Policy.Unknown

/-- Modelled from the spec: the same classifier consulting the tables in the other order,
`commandMap` first and `forwardCommands` second. -/
def classifyMapFirst (name : String) : Policy :=
  match commandMap.lookup name with
  | some RPCCommand.subscribe => Policy.SubscriptionOp
  | some RPCCommand.unsubscribe => Policy.SubscriptionOp
  | some _ => Policy.LocalRead
  | none => if forwardCommands.contains name then Policy.ForwardWrite else Policy.Unknown

/-! ## SslWsSession.h : data shared by the session and the upgrader -/

/-- The contents of a byte buffer (`boost::beast::flat_buffer`, `std::string`). -/
abbrev Bytes := List UInt8

/-- Error codes that the handlers compare against; every other code is `other`. -/
inductive ErrorCode
  | closed
  | end_of_stream
  | body_limit
  | other (code : Nat)
  deriving DecidableEq, Repr

/-- A `boost::beast::error_code` as received by a completion handler: `none` is success
(the code tests false), `some e` is a set code. -/
abbrev Ec := Option ErrorCode

/-- A JSON value of Boost.JSON. -/
inductive JsonValue
  | null
  | bool (b : Bool)
  | number (n : Int)
  | string (s : String)
  | array (items : List JsonValue)
  | object (fields : List (String × JsonValue))

/-- A `boost::json::object`: its fields in insertion order. -/
abbrev JsonObject := List (String × JsonValue)

/-- The member lookup `object::if_contains`. -/
def JsonObject.find (o : JsonObject) (key : String) : Option JsonValue :=
  o.lookup key

/-- The assignment `o[key] = v`: replaces the value of an existing key, appends a new
field otherwise. -/
def JsonObject.set (o : JsonObject) (key : String) (v : JsonValue) : JsonObject :=
  if o.any (fun p => p.1 == key) then
    o.map (fun p => if p.1 == key then (key, v) else p)
  else
    o ++ [(key, v)]

/-- The exceptions that reach the two handlers of `on_read`.  `DatabaseTimeout` is
`Backend::DatabaseTimeout`; `std_exception` is any other exception derived from
`std::exception`, with its `what()` text. -/
inductive Exn
  | DatabaseTimeout
  | std_exception (what : String)
  deriving DecidableEq, Repr

/-- The accessor `value::as_object`, which throws when the value is not an object. -/
def JsonValue.as_object : JsonValue → Except Exn JsonObject
  | .object fields => .ok fields
  | _ => .error (Exn.std_exception "not an object")

/-- The collaborators of `on_read` whose code is outside the sources: `boost::json::parse`,
the dispatcher `buildResponse` (declared in Handlers.h, body absent) with the reporting
backend and the calling session fixed, and `boost::json::serialize`. -/
structure Env where
  parse : Bytes → Except Exn JsonValue
  buildResponse : JsonObject → Except Exn JsonObject
  serialize : JsonObject → Bytes

/-- The text that `on_read` stores under "error" on a database timeout. -/
def databaseTimeoutMessage : String :=
  "Database read timeout. Please retry the request"

/-! ## SslWsSession.h : class SslWsSession -/

/-- The state of an `SslWsSession`: the members `response_` and `buffer_`, the operations
outstanding on `ws_` (accept, reads, the payloads of the writes), and the causes logged
by `wsFail`. -/
structure SslWsSession where
  response_ : Bytes
  buffer_ : Bytes
  pendingAccept : Bool
  pendingReads : Nat
  pendingWrites : List Bytes
  log : List String
  deriving DecidableEq, Repr

/-- Modelled from the spec: `wsFail(ec, what)` of WsBase.h, which is not among the sources;
it logs the cause and does nothing else. -/
def SslWsSession.wsFail (ec : Ec) (what : String) (s : SslWsSession) : SslWsSession :=
  { s with log := s.log ++ [what] }

/-- The constructor `SslWsSession(stream, etl, b)`.  Its initialiser list names `WsBase`,
`ws_` and `etl_` only, so `buffer_` and `response_` are default-constructed and the
parameter `b` is not used. -/
def SslWsSession.new (b : Bytes) : SslWsSession :=
  { response_ := [], buffer_ := [], pendingAccept := false, pendingReads := 0,
    pendingWrites := [], log := [] }

/-- The method `send(msg)`: starts an `async_write` of `msg`. -/
def SslWsSession.send (msg : Bytes) (s : SslWsSession) : SslWsSession :=
  { s with pendingWrites := s.pendingWrites ++ [msg] }

/-- The method `run(req)`: sets the stream options and starts `async_accept`. -/
def SslWsSession.run (s : SslWsSession) : SslWsSession :=
  { s with pendingAccept := true }

/-- The method `do_read`: starts an `async_read` into `buffer_`. -/
def SslWsSession.do_read (s : SslWsSession) : SslWsSession :=
  { s with pendingReads := s.pendingReads + 1 }

/-- The method `on_accept(ec)`. -/
def SslWsSession.on_accept (ec : Ec) (s : SslWsSession) : SslWsSession :=
  if ec.isSome then s.wsFail ec "accept" else s.do_read

/-- The try/catch block of `on_read`: the value of the local `response` after it.
`response` starts as the empty object.  A failure of `parse` or `as_object` and an
exception of `buildResponse` other than `DatabaseTimeout` reach the outer handler, which
logs and leaves `response` as it is; `DatabaseTimeout` reaches the inner handler, which
assigns the "error" field. -/
def SslWsSession.on_read_response (env : Env) (msg : Bytes) : JsonObject :=
  match env.parse msg with
  | .error _ => []
  | .ok raw =>
    match raw.as_object with
    | .error _ => []
    | .ok request =>
      match env.buildResponse request with
      | .ok response => response
      | .error Exn.DatabaseTimeout =>
        JsonObject.set [] "error" (JsonValue.string databaseTimeoutMessage)
      | .error (Exn.std_exception _) => []

/-- The method `on_read(ec, bytes_transferred)`.  On `closed` it returns.  On any other
set code it calls `wsFail` and, there being no `return`, goes on like a successful read:
it builds the response from the buffer, stores its serialisation in `response_` and
starts an `async_write` of it. -/
def SslWsSession.on_read (env : Env) (ec : Ec) (s : SslWsSession) : SslWsSession :=
  if ec = some ErrorCode.closed then s
  else
    let s1 := if ec.isSome then s.wsFail ec "read" else s
    let response := SslWsSession.on_read_response env s1.buffer_
    { s1 with
      response_ := env.serialize response,
      pendingWrites := s1.pendingWrites ++ [env.serialize response] }

/-- The method `on_write(ec, bytes_transferred)`: on a set code `wsFail` and return;
otherwise clear the buffer and `do_read`. -/
def SslWsSession.on_write (ec : Ec) (s : SslWsSession) : SslWsSession :=
  if ec.isSome then s.wsFail ec "write"
  else SslWsSession.do_read { s with buffer_ := [] }

/-- What can happen to an open session: an outstanding read completes with code `ec`
after appending `data` to `buffer_`; the oldest outstanding write completes with code
`ec`; or the subscription engine calls `send`. -/
inductive Event
  | readDone (ec : Ec) (data : Bytes)
  | writeDone (ec : Ec)
  | send (msg : Bytes)
  deriving DecidableEq, Repr

/-- True for the `send` events. -/
def Event.isSend : Event → Bool
  | .send _ => true
  | _ => false

/-- One event on a session.  A completion needs an outstanding operation of its kind
(`none` otherwise); it removes that operation and runs the handler bound to it. -/
def SslWsSession.step (env : Env) (s : SslWsSession) : Event → Option SslWsSession
  | .readDone ec data =>
    if s.pendingReads = 0 then none
    else some (SslWsSession.on_read env ec
      { s with pendingReads := s.pendingReads - 1, buffer_ := s.buffer_ ++ data })
  | .writeDone ec =>
    match s.pendingWrites with
    | [] => none
    | _ :: rest => some (SslWsSession.on_write ec { s with pendingWrites := rest })
  | .send msg => some (s.send msg)

/-- A sequence of events, from left to right. -/
def SslWsSession.steps (env : Env) (s : SslWsSession) : List Event → Option SslWsSession
  | [] => some s
  | e :: es =>
    match s.step env e with
    | none => none
    | some t => t.steps env es

/-- The session as it enters Open: constructed with residual buffer `b`, run, and the
accept completed without error, which calls `do_read`. -/
def SslWsSession.opened (b : Bytes) : SslWsSession :=
  SslWsSession.on_accept none { (SslWsSession.new b).run with pendingAccept := false }

/-! ## SslWsSession.h : class SslWsUpgrader -/

/-- What the upgrader uses of a parsed HTTP request: whether `websocket::is_upgrade`
holds of it, and its body. -/
structure HttpRequest where
  is_upgrade : Bool
  body : Bytes
  deriving DecidableEq, Repr

/-- The member `parser_` once emplaced: its body limit and the request it holds. -/
structure RequestParser where
  body_limit : Nat
  request : HttpRequest
  deriving DecidableEq, Repr

/-- The state of an `SslWsUpgrader`: the members `parser_` and `buffer_`, the operations
outstanding on `https_`, the session made by `on_upgrade` (if any), and the causes
logged by `wsFail`. -/
structure SslWsUpgrader where
  parser_ : Option RequestParser
  buffer_ : Bytes
  pendingHandshake : Bool
  pendingRead : Bool
  session : Option SslWsSession
  log : List String
  deriving DecidableEq, Repr

/-- Modelled from the spec: `wsFail(ec, what)` of WsBase.h, as called by the upgrader; it
logs the cause and does nothing else. -/
def SslWsUpgrader.wsFail (ec : Ec) (what : String) (u : SslWsUpgrader) : SslWsUpgrader :=
  { u with log := u.log ++ [what] }

/-- The constructor `SslWsUpgrader(socket, ctx, etl, b)`: `buffer_` is moved from `b`. -/
def SslWsUpgrader.new (b : Bytes) : SslWsUpgrader :=
  { parser_ := none, buffer_ := b, pendingHandshake := false, pendingRead := false,
    session := none, log := [] }

/-- The method `run`: starts the buffered `async_handshake`. -/
def SslWsUpgrader.run (u : SslWsUpgrader) : SslWsUpgrader :=
  { u with pendingHandshake := true }

/-- The method `do_upgrade`: emplaces the parser, sets its body limit to 10000 and starts
`http::async_read`. -/
def SslWsUpgrader.do_upgrade (u : SslWsUpgrader) : SslWsUpgrader :=
  { u with
    parser_ := some { body_limit := 10000, request := { is_upgrade := false, body := [] } },
    pendingRead := true }

/-- The method `on_handshake(ec, bytes_used)`. -/
def SslWsUpgrader.on_handshake (ec : Ec) (bytes_used : Nat) (u : SslWsUpgrader) :
    SslWsUpgrader :=
  if ec.isSome then u.wsFail ec "handshake"
  else SslWsUpgrader.do_upgrade { u with buffer_ := u.buffer_.drop bytes_used }

/-- The method `on_upgrade(ec, bytes_transferred)`.  On success it makes a session from
the moved `buffer_` and runs it.  The handler is bound only by `do_upgrade`, which
emplaces `parser_` first; the branch for an empty `parser_` is never taken and leaves
the state as it is. -/
def SslWsUpgrader.on_upgrade (ec : Ec) (u : SslWsUpgrader) : SslWsUpgrader :=
  if ec = some ErrorCode.end_of_stream then u
  else if ec.isSome then u.wsFail ec "upgrade"
  else
    match u.parser_ with
    | none => u
    | some parser =>
      if !parser.request.is_upgrade then u.wsFail ec "is_upgrade"
      else { u with buffer_ := [], session := some (SslWsSession.new u.buffer_).run }

/-- The result of the read started by `do_upgrade`, as delivered by the transport: the
request sent by the peer, a transport failure if there was one, and the bytes that
follow the request in the buffer. -/
structure UpgradeRead where
  request : HttpRequest
  failure : Ec
  residual : Bytes
  deriving DecidableEq, Repr

/-- The code with which `http::async_read` completes on a parser with limit `limit`: the
transport failure if any, `body_limit` when the body is longer than the limit, success
otherwise.  This is the behaviour Beast documents for `parser::body_limit`. -/
def http_read_result (limit : Nat) (rd : UpgradeRead) : Ec :=
  match rd.failure with
  | some e => some e
  | none => if limit < rd.request.body.length then some ErrorCode.body_limit else none

/-- Completion of the handshake: needs the handshake outstanding. -/
def SslWsUpgrader.handshakeDone (ec : Ec) (bytes_used : Nat) (u : SslWsUpgrader) :
    Option SslWsUpgrader :=
  if u.pendingHandshake then
    some (SslWsUpgrader.on_handshake ec bytes_used { u with pendingHandshake := false })
  else none

/-- Completion of the upgrade read: needs the read outstanding and the parser emplaced.
On success the parser holds the request and the buffer the residual bytes. -/
def SslWsUpgrader.readDone (rd : UpgradeRead) (u : SslWsUpgrader) : Option SslWsUpgrader :=
  match u.pendingRead, u.parser_ with
  | true, some parser =>
    match http_read_result parser.body_limit rd with
    | some e => some (SslWsUpgrader.on_upgrade (some e) { u with pendingRead := false })
    | none =>
      some (SslWsUpgrader.on_upgrade none
        { u with
          pendingRead := false,
          parser_ := some { parser with request := rd.request },
          buffer_ := rd.residual })
  | _, _ => none

/-- The life of an upgrader made with buffer `b`: run, the handshake completes with code
`hs` having used `bytes_used` bytes, and, when a read was started, it completes as `rd`. -/
def SslWsUpgrader.life (b : Bytes) (hs : Ec) (bytes_used : Nat) (rd : UpgradeRead) :
    SslWsUpgrader :=
  match SslWsUpgrader.handshakeDone hs bytes_used (SslWsUpgrader.new b).run with
  | none => (SslWsUpgrader.new b).run
  | some u =>
    match SslWsUpgrader.readDone rd u with
    | none => u
    | some v => v

/-- No operation is outstanding on the upgrader and it holds no session: Closed. -/
def SslWsUpgrader.isClosed (u : SslWsUpgrader) : Bool :=
  !u.pendingHandshake && !u.pendingRead && u.session.isNone

/-- An environment for examples: every message parses to the request whose single field
"command" is "account_info", the backing store times out, and an object is serialised
to one byte, its number of fields. -/
def timeoutEnv : Env :=
  { parse := fun _ => .ok (JsonValue.object [("command", JsonValue.string "account_info")]),
    buildResponse := fun _ => .error Exn.DatabaseTimeout,
    serialize := fun o => [UInt8.ofNat o.length] }

/-- An environment for examples: the parser rejects every message, as `boost::json::parse`
rejects the text not-json; an object is serialised to one byte, its number of fields. -/
def rejectingEnv : Env :=
  { parse := fun _ => .error (Exn.std_exception "syntax error"),
    buildResponse := fun request => .ok request,
    serialize := fun o => [UInt8.ofNat o.length] }

/-- At most one operation, read or write, is outstanding on the session. -/
def SslWsSession.oneOutstanding (s : SslWsSession) : Prop :=
  s.pendingReads + s.pendingWrites.length ≤ 1

instance (s : SslWsSession) : Decidable s.oneOutstanding :=
  inferInstanceAs (Decidable (s.pendingReads + s.pendingWrites.length ≤ 1))

/-! ## DBHelpers.h : isOffer and isOfferHex -/

/-- The conversion of an `int` value to `short` (16 bits, two complement). -/
def toShort (n : Nat) : Int :=
  if n % 65536 < 32768 then ((n % 65536 : Nat) : Int) else ((n % 65536 : Nat) : Int) - 65536

/-- The template `isOffer` on a sequence of unsigned bytes.  `operator[]` is unchecked:
`none` stands for a read outside the sequence (undefined behaviour). -/
def isOffer (object : Bytes) : Option Bool :=
  match object[1]?, object[2]? with
  | some b1, some b2 => some (toShort ((b1.toNat <<< 8) ||| b2.toNat) == 0x006f)
  | _, _ => none

/-- The digit table of `ripple::strUnHex`: the value of a hexadecimal digit, either case,
and `none` for any other character. -/
def hexDigit (c : Char) : Option Nat :=
  if 48 ≤ c.toNat ∧ c.toNat ≤ 57 then some (c.toNat - 48)
  else if 65 ≤ c.toNat ∧ c.toNat ≤ 70 then some (c.toNat - 55)
  else if 97 ≤ c.toNat ∧ c.toNat ≤ 102 then some (c.toNat - 87)
  else none

/-- The loop of `ripple::strUnHex`: one byte per pair of digits, `none` at the first
character that is not a digit (or when a digit has no partner). -/
def strUnHexPairs : List Char → Option Bytes
  | [] => some []
  | [_] => none
  | hi :: lo :: rest =>
    match hexDigit hi, hexDigit lo with
    | some h, some l =>
      match strUnHexPairs rest with
      | some out => some (UInt8.ofNat ((h <<< 4) ||| l) :: out)
      | none => none
    | _, _ => none

/-- The library function `ripple::strUnHex(strSize, begin, end)` of rippled, on the
characters of the range: decodes hexadecimal text to bytes; an odd `strSize` makes the
first digit a byte of its own.  The result is `none` when a character is not a digit. -/
def strUnHex (strSize : Nat) (range : List Char) : Option Bytes :=
  if strSize % 2 = 1 then
    match range with
    | [] => none
    | c :: rest =>
      match hexDigit c, strUnHexPairs rest with
      | some d, some out => some (UInt8.ofNat d :: out)
      | _, _ => none
  else strUnHexPairs range

/-- The template `isOfferHex` on hexadecimal text.  The blob is decoded from the first 4
characters; `none` stands for a read outside the text or outside the blob (undefined
behaviour). -/
def isOfferHex (object : List Char) : Option Bool :=
  if object.length < 4 then none
  else
    match strUnHex 4 (object.take 4) with
    | some blob =>
      match blob[1]?, blob[2]? with
      | some b1, some b2 => some (toShort ((b1.toNat <<< 8) ||| b2.toNat) == 0x006f)
      | _, _ => none
    | none => some false

/-- The upper-case hexadecimal digit of a value below 16. -/
def hexChar (n : Nat) : Char :=
  if n < 10 then Char.ofNat (48 + n) else Char.ofNat (55 + n)

/-- The hexadecimal encoding of a byte string: two digits per byte, high digit first. -/
def strHex : Bytes → List Char
  | [] => []
  | b :: rest => hexChar (b.toNat / 16) :: hexChar (b.toNat % 16) :: strHex rest

/-! ## Theorems : the command tables -/

/-- A name that is in neither table misses both lookups and classifies as Unknown. -/
theorem classify_absent_aux (s : String) (hf : s ∉ forwardCommands)
    (hc : s ∉ commandNames) :
    forwardCommands.contains s = false ∧ commandMap.lookup s = none ∧
      classify s = Policy.Unknown := by
  have hl : commandMap.lookup s = none := by
    rw [List.lookup_eq_none_iff]
    intro p hp
    have hne : s ≠ p.1 := fun h => hc (h ▸ List.mem_map_of_mem Prod.fst hp)
    simpa using hne
  have hfc : forwardCommands.contains s = false := by simpa using hf
  refine ⟨hfc, hl, ?_⟩
  unfold classify
  simp [hf, hl]

/-- Membership in `forwardCommands`, spelled out. -/
theorem mem_forwardCommands (s : String) :
    s ∈ forwardCommands ↔
      s = "submit" ∨ s = "submit_multisigned" ∨ s = "fee" ∨ s = "path_find" ∨
        s = "ripple_path_find" ∨ s = "manifest" := by
  simp only [forwardCommands, List.mem_cons, List.mem_singleton, List.not_mem_nil, or_false]

/-- Membership in the keys of `commandMap`, spelled out. -/
theorem mem_commandNames (s : String) :
    s ∈ commandNames ↔
      s = "tx" ∨ s = "account_tx" ∨ s = "ledger" ∨ s = "ledger_range" ∨
        s = "ledger_entry" ∨ s = "account_info" ∨ s = "ledger_data" ∨ s = "book_offers" ∨
        s = "account_channels" ∨ s = "account_lines" ∨ s = "account_currencies" ∨
        s = "account_offers" ∨ s = "account_objects" ∨ s = "channel_authorize" ∨
        s = "channel_verify" ∨ s = "subscribe" ∨ s = "unsubscribe" ∨ s = "server_info" := by
  simp only [commandNames, commandMap, List.map, List.mem_cons, List.mem_singleton,
    List.not_mem_nil, or_false]

/-- C1: classifying a name by the two tables gives the policy table of the spec.
ForwardWrite for exactly the six forwarded names, SubscriptionOp for exactly subscribe
and unsubscribe, LocalRead for exactly the sixteen read commands; and `commandMap` has 18
entries, each keyed by the identifier of its `RPCCommand` constant, so that looking up
the identifier of any constant finds that constant. -/
theorem classify_policy_table :
    (∀ s : String,
      (classify s = Policy.ForwardWrite ↔
        s ∈ ["submit", "submit_multisigned", "fee", "path_find", "ripple_path_find",
          "manifest"]) ∧
      (classify s = Policy.SubscriptionOp ↔ s ∈ ["subscribe", "unsubscribe"]) ∧
      (classify s = Policy.LocalRead ↔
        s ∈ ["tx", "account_tx", "ledger", "ledger_range", "ledger_entry", "account_info",
          "ledger_data", "book_offers", "account_channels", "account_lines",
          "account_currencies", "account_offers", "account_objects", "channel_authorize",
          "channel_verify", "server_info"])) ∧
    commandMap.length = 18 ∧
    commandMap.map Prod.fst = commandMap.map (fun p => p.2.ident) ∧
    (∀ c : RPCCommand, commandMap.lookup c.ident = some c) := by
  refine ⟨?_, by decide, by decide, ?_⟩
  · intro s
    by_cases hf : s ∈ forwardCommands
    · rw [mem_forwardCommands] at hf
      rcases hf with rfl | rfl | rfl | rfl | rfl | rfl <;> decide
    · by_cases hc : s ∈ commandNames
      · rw [mem_commandNames] at hc
        rcases hc with rfl | rfl | rfl | rfl | rfl | rfl | rfl | rfl | rfl | rfl | rfl |
          rfl | rfl | rfl | rfl | rfl | rfl | rfl <;> decide
      · have hu := (classify_absent_aux s hf hc).2.2
        rw [mem_forwardCommands] at hf
        rw [mem_commandNames] at hc
        simp only [not_or] at hf hc
        simp [hu, hf, hc]
  · intro c
    cases c <;> decide

/-- C2: classification is a total function of the name, and it yields Unknown on exactly
the strings outside the two tables.  For every string, both lookups miss exactly when the
string is none of the 6 names of `forwardCommands` and none of the 18 keys of
`commandMap`, and the result is Unknown exactly then; so "bogus_cmd", the empty string,
and known names in another letter case ("TX", "Submit", "Fee") are classified Unknown,
while every name of either table is not. -/
theorem classify_unknown_iff_absent (s : String) :
    ((forwardCommands.contains s = false ∧ commandMap.lookup s = none) ↔
      s ∉ ["submit", "submit_multisigned", "fee", "path_find", "ripple_path_find",
        "manifest", "tx", "account_tx", "ledger", "ledger_range", "ledger_entry",
        "account_info", "ledger_data", "book_offers", "account_channels", "account_lines",
        "account_currencies", "account_offers", "account_objects", "channel_authorize",
        "channel_verify", "subscribe", "unsubscribe", "server_info"]) ∧
    (classify s = Policy.Unknown ↔
      s ∉ ["submit", "submit_multisigned", "fee", "path_find", "ripple_path_find",
        "manifest", "tx", "account_tx", "ledger", "ledger_range", "ledger_entry",
        "account_info", "ledger_data", "book_offers", "account_channels", "account_lines",
        "account_currencies", "account_offers", "account_objects", "channel_authorize",
        "channel_verify", "subscribe", "unsubscribe", "server_info"]) ∧
    classify "bogus_cmd" = Policy.Unknown ∧ classify "" = Policy.Unknown ∧
    classify "TX" = Policy.Unknown ∧ classify "Submit" = Policy.Unknown ∧
    classify "Fee" = Policy.Unknown ∧
    (knownNames.all (fun n => decide (classify n ≠ Policy.Unknown))) = true := by
  refine ⟨?_, ?_, by decide, by decide, by decide, by decide, by decide, by decide⟩
  · by_cases hf : s ∈ forwardCommands
    · rw [mem_forwardCommands] at hf
      rcases hf with rfl | rfl | rfl | rfl | rfl | rfl <;> decide
    · by_cases hc : s ∈ commandNames
      · rw [mem_commandNames] at hc
        rcases hc with rfl | rfl | rfl | rfl | rfl | rfl | rfl | rfl | rfl | rfl | rfl |
          rfl | rfl | rfl | rfl | rfl | rfl | rfl <;> decide
      · obtain ⟨hfc, hl, -⟩ := classify_absent_aux s hf hc
        rw [mem_forwardCommands] at hf
        rw [mem_commandNames] at hc
        simp only [not_or] at hf hc
        exact ⟨fun _ => by simp [hf, hc], fun _ => ⟨hfc, hl⟩⟩
  · by_cases hf : s ∈ forwardCommands
    · rw [mem_forwardCommands] at hf
      rcases hf with rfl | rfl | rfl | rfl | rfl | rfl <;> decide
    · by_cases hc : s ∈ commandNames
      · rw [mem_commandNames] at hc
        rcases hc with rfl | rfl | rfl | rfl | rfl | rfl | rfl | rfl | rfl | rfl | rfl |
          rfl | rfl | rfl | rfl | rfl | rfl | rfl <;> decide
      · have hu := (classify_absent_aux s hf hc).2.2
        rw [mem_forwardCommands] at hf
        rw [mem_commandNames] at hc
        simp only [not_or] at hf hc
        simp [hu, hf, hc]

/-- C3: every known name has exactly one policy.  The set `forwardCommands` and the keys
of `commandMap` are disjoint, neither lists a name twice, the 24 known names are pairwise
distinct, and consulting `commandMap` before `forwardCommands` classifies every name as
consulting `forwardCommands` first does. -/
theorem known_names_one_policy :
    List.Disjoint forwardCommands commandNames ∧
    forwardCommands.Nodup ∧ commandNames.Nodup ∧
    knownNames.Nodup ∧ knownNames.length = 24 ∧
    (∀ s : String, classifyMapFirst s = classify s) := by
  have hnd : knownNames.Nodup := by decide
  have hparts := List.nodup_append.mp hnd
  refine ⟨?_, hparts.1, hparts.2.1, hnd, by decide, ?_⟩
  · intro a ha hb
    exact hparts.2.2 ha hb
  · intro s
    by_cases hf : s ∈ forwardCommands
    · rw [mem_forwardCommands] at hf
      rcases hf with rfl | rfl | rfl | rfl | rfl | rfl <;> decide
    · by_cases hc : s ∈ commandNames
      · rw [mem_commandNames] at hc
        rcases hc with rfl | rfl | rfl | rfl | rfl | rfl | rfl | rfl | rfl | rfl | rfl |
          rfl | rfl | rfl | rfl | rfl | rfl | rfl <;> decide
      · obtain ⟨hfc, hl, hu⟩ := classify_absent_aux s hf hc
        rw [hu]
        unfold classifyMapFirst
        simp [hl, hf]

/-! ## Theorems : SslWsSession and SslWsUpgrader -/

/-- What `on_read` does on any completion other than `closed`: it serialises the response
built from the buffer into `response_`, starts one write of it, starts no read, keeps the
buffer, and logs exactly when the code is set. -/
theorem on_read_not_closed (env : Env) (ec : Ec) (s : SslWsSession)
    (hec : ec ≠ some ErrorCode.closed) :
    (SslWsSession.on_read env ec s).response_ =
        env.serialize (SslWsSession.on_read_response env s.buffer_) ∧
    (SslWsSession.on_read env ec s).pendingWrites =
        s.pendingWrites ++ [env.serialize (SslWsSession.on_read_response env s.buffer_)] ∧
    (SslWsSession.on_read env ec s).pendingReads = s.pendingReads ∧
    (SslWsSession.on_read env ec s).buffer_ = s.buffer_ ∧
    (SslWsSession.on_read env ec s).log = s.log ++ (if ec.isSome then ["read"] else []) := by
  unfold SslWsSession.on_read
  rw [if_neg hec]
  cases ec with
  | none => simp
  | some e => simp [SslWsSession.wsFail]

/-- When a write is outstanding, its successful completion is enabled; it starts one read
and clears the buffer. -/
theorem write_done_after_append (env : Env) (s : SslWsSession) (ws : List Bytes) (w : Bytes)
    (hw : s.pendingWrites = ws ++ [w]) :
    ∃ t, s.step env (Event.writeDone none) = some t ∧
      t.pendingReads = s.pendingReads + 1 ∧ t.buffer_ = [] ∧
      t.pendingWrites.length = ws.length := by
  cases ws with
  | nil =>
    simp only [List.nil_append] at hw
    simp [SslWsSession.step, hw, SslWsSession.on_write, SslWsSession.do_read]
  | cons a rest =>
    simp only [List.cons_append] at hw
    simp [SslWsSession.step, hw, SslWsSession.on_write, SslWsSession.do_read]

/-- C4: in `on_read`, when the read did not complete with `closed`, the payload parses to a
JSON object and `buildResponse` raises `DatabaseTimeout`, the response is exactly the
object with the single field "error" whose value is the string "Database read timeout.
Please retry the request"; its serialisation is stored in `response_` and written, no
read is started before that write completes, and the successful completion of the write
is enabled, clears the buffer and starts the next read. -/
theorem on_read_database_timeout (env : Env) (ec : Ec) (s : SslWsSession)
    (request : JsonObject)
    (hec : ec ≠ some ErrorCode.closed)
    (hparse : env.parse s.buffer_ = .ok (JsonValue.object request))
    (htimeout : env.buildResponse request = .error Exn.DatabaseTimeout) :
    SslWsSession.on_read_response env s.buffer_ =
        [("error", JsonValue.string "Database read timeout. Please retry the request")] ∧
    (SslWsSession.on_read env ec s).response_ =
        env.serialize
          [("error", JsonValue.string "Database read timeout. Please retry the request")] ∧
    (SslWsSession.on_read env ec s).pendingWrites =
        s.pendingWrites ++ [(SslWsSession.on_read env ec s).response_] ∧
    (SslWsSession.on_read env ec s).pendingReads = s.pendingReads ∧
    ∃ t, (SslWsSession.on_read env ec s).step env (Event.writeDone none) = some t ∧
      t.pendingReads = s.pendingReads + 1 ∧ t.buffer_ = [] ∧
      t.pendingWrites.length = s.pendingWrites.length := by
  have hresp : SslWsSession.on_read_response env s.buffer_ =
      [("error", JsonValue.string "Database read timeout. Please retry the request")] := by
    simp [SslWsSession.on_read_response, hparse, htimeout, JsonValue.as_object,
      JsonObject.set, databaseTimeoutMessage]
  obtain ⟨h1, h2, h3, h4, h5⟩ := on_read_not_closed env ec s hec
  rw [hresp] at h1 h2
  refine ⟨hresp, h1, ?_, h3, ?_⟩
  · rw [h2, h1]
  · obtain ⟨t, ht, hr, hb, hl⟩ := write_done_after_append env _ _ _ h2
    exact ⟨t, ht, by rw [hr, h3], hb, hl⟩

/-- Witness for C4: the theorem applied to a freshly opened session in an environment
whose store times out. -/
theorem on_read_database_timeout_witness :
    (SslWsSession.on_read timeoutEnv none (SslWsSession.opened [])).response_ =
      timeoutEnv.serialize
        [("error", JsonValue.string "Database read timeout. Please retry the request")] :=
  (on_read_database_timeout timeoutEnv none (SslWsSession.opened [])
    [("command", JsonValue.string "account_info")] (by decide) rfl rfl).2.1

/-- C5 (the code at the failing inputs): in `on_read`, when the payload is malformed JSON,
or is JSON that is not an object, or `buildResponse` raises an exception other than the
database timeout, the response is the empty object: it has no "error" field.  Its
serialisation is stored in `response_` and written. -/
theorem on_read_failure_response_empty (env : Env) (ec : Ec) (s : SslWsSession)
    (hec : ec ≠ some ErrorCode.closed)
    (hfail : (∃ e, env.parse s.buffer_ = .error e) ∨
      (∃ v, env.parse s.buffer_ = .ok v ∧ ∀ o, v ≠ JsonValue.object o) ∨
      (∃ request what, env.parse s.buffer_ = .ok (JsonValue.object request) ∧
        env.buildResponse request = .error (Exn.std_exception what))) :
    SslWsSession.on_read_response env s.buffer_ = [] ∧
    JsonObject.find (SslWsSession.on_read_response env s.buffer_) "error" = none ∧
    (SslWsSession.on_read env ec s).response_ = env.serialize [] ∧
    (SslWsSession.on_read env ec s).pendingWrites = s.pendingWrites ++ [env.serialize []] := by
  have hresp : SslWsSession.on_read_response env s.buffer_ = [] := by
    rcases hfail with ⟨e, he⟩ | ⟨v, hv, hno⟩ | ⟨request, what, hp, hb⟩
    · simp [SslWsSession.on_read_response, he]
    · cases v with
      | object o => exact absurd rfl (hno o)
      | _ => simp [SslWsSession.on_read_response, hv, JsonValue.as_object]
    · simp [SslWsSession.on_read_response, hp, hb, JsonValue.as_object]
  obtain ⟨h1, h2, -, -, -⟩ := on_read_not_closed env ec s hec
  rw [hresp] at h1 h2
  exact ⟨hresp, by rw [hresp]; rfl, h1, h2⟩

/-- Witness for C5: the theorem applied to a freshly opened session whose parser rejects
the message. -/
theorem on_read_failure_response_empty_witness :
    JsonObject.find (SslWsSession.on_read_response rejectingEnv
      (SslWsSession.opened []).buffer_) "error" = none :=
  (on_read_failure_response_empty rejectingEnv none (SslWsSession.opened [])
    (by decide) (Or.inl ⟨_, rfl⟩)).2.1

/-- C6 (the code at the failing inputs): when a read completes with a set code other
than `closed`, `on_read` logs the failure and then, not returning, processes the buffer
as a request and starts a write of the response. -/
theorem on_read_error_falls_through (env : Env) (e : ErrorCode) (s : SslWsSession)
    (he : e ≠ ErrorCode.closed) :
    (SslWsSession.on_read env (some e) s).log = s.log ++ ["read"] ∧
    (SslWsSession.on_read env (some e) s).response_ =
        env.serialize (SslWsSession.on_read_response env s.buffer_) ∧
    (SslWsSession.on_read env (some e) s).pendingWrites =
        s.pendingWrites ++ [env.serialize (SslWsSession.on_read_response env s.buffer_)] := by
  have hec : (some e : Ec) ≠ some ErrorCode.closed := by
    intro h
    exact he (Option.some.inj h)
  obtain ⟨h1, h2, -, -, h5⟩ := on_read_not_closed env (some e) s hec
  exact ⟨by simpa using h5, h1, h2⟩

/-- Witness for C6: a read that fails with code 104 on a new session leaves one write
outstanding, that of the empty object. -/
theorem on_read_error_falls_through_witness :
    (SslWsSession.on_read rejectingEnv (some (ErrorCode.other 104))
      (SslWsSession.new [])).pendingWrites = [[0]] :=
  (on_read_error_falls_through rejectingEnv (ErrorCode.other 104) (SslWsSession.new [])
    (by decide)).2.2



/-- A completion event keeps the invariant `oneOutstanding`. -/
theorem step_oneOutstanding (env : Env) (s t : SslWsSession) (e : Event)
    (hns : e.isSend = false) (hinv : s.oneOutstanding) (hstep : s.step env e = some t) :
    t.oneOutstanding := by
  unfold SslWsSession.oneOutstanding at *
  cases e with
  | send msg => simp [Event.isSend] at hns
  | readDone ec data =>
    simp only [SslWsSession.step] at hstep
    split at hstep
    · exact absurd hstep (by simp)
    · rename_i hr
      have ht := Option.some.inj hstep
      subst ht
      unfold SslWsSession.on_read
      split
      · simp only; omega
      · cases ec with
        | none => simp; omega
        | some c => simp [SslWsSession.wsFail]; omega
  | writeDone ec =>
    simp only [SslWsSession.step] at hstep
    split at hstep
    · exact absurd hstep (by simp)
    · rename_i w rest hw
      have ht := Option.some.inj hstep
      subst ht
      rw [hw] at hinv
      simp only [List.length_cons] at hinv
      cases ec with
      | none => simp [SslWsSession.on_write, SslWsSession.do_read]; omega
      | some c => simp [SslWsSession.on_write, SslWsSession.wsFail]; omega

/-- A sequence of completion events keeps the invariant `oneOutstanding`. -/
theorem steps_oneOutstanding (env : Env) (evs : List Event) :
    ∀ (s t : SslWsSession), (∀ e ∈ evs, e.isSend = false) → s.oneOutstanding →
      s.steps env evs = some t → t.oneOutstanding := by
  induction evs with
  | nil =>
    intro s t _ hinv hrun
    simp only [SslWsSession.steps] at hrun
    exact (Option.some.inj hrun) ▸ hinv
  | cons e es ih =>
    intro s t hns hinv hrun
    simp only [SslWsSession.steps] at hrun
    split at hrun
    · exact absurd hrun (by simp)
    · rename_i u hu
      exact ih u t (fun x hx => hns x (List.mem_cons_of_mem _ hx))
        (step_oneOutstanding env s u e (hns e (List.mem_cons_self _ _)) hinv hu) hrun

/-- A session entering Open has one read outstanding and nothing else. -/
theorem opened_oneOutstanding (b : Bytes) : (SslWsSession.opened b).oneOutstanding := by
  simp [SslWsSession.oneOutstanding, SslWsSession.opened, SslWsSession.on_accept,
    SslWsSession.do_read, SslWsSession.run, SslWsSession.new]

/-- C7, counterexample: with `send` among the steps the claim fails.  From a freshly
opened session, `send` followed by the successful completion of its write leaves two
reads outstanding; and a completed read followed by `send` leaves two writes
outstanding. -/
theorem send_breaks_single_outstanding :
    (((SslWsSession.opened []).steps rejectingEnv
        [Event.send [1], Event.writeDone none]).map (fun t => t.pendingReads) = some 2) ∧
    (((SslWsSession.opened []).steps rejectingEnv
        [Event.readDone none [], Event.send [1]]).map (fun t => t.pendingWrites.length)
      = some 2) := by
  constructor <;> rfl

/-- C7, amended: in every state reached by an open session under read and write
completions alone (no call of `send`), at most one read and at most one write are
outstanding, and a successful write completion enabled in that state starts exactly one
read, which is then the only outstanding operation. -/
theorem request_loop_single_outstanding (env : Env) (b : Bytes) (evs : List Event)
    (t : SslWsSession)
    (hns : ∀ e ∈ evs, e.isSend = false)
    (hrun : (SslWsSession.opened b).steps env evs = some t) :
    t.pendingReads ≤ 1 ∧ t.pendingWrites.length ≤ 1 ∧
    ∀ u, t.step env (Event.writeDone none) = some u →
      u.pendingReads = t.pendingReads + 1 ∧ u.pendingReads = 1 ∧ u.pendingWrites = [] := by
  have hinv := steps_oneOutstanding env evs _ t hns (opened_oneOutstanding b) hrun
  unfold SslWsSession.oneOutstanding at hinv
  refine ⟨by omega, by omega, ?_⟩
  intro u hu
  simp only [SslWsSession.step] at hu
  split at hu
  · exact absurd hu (by simp)
  · rename_i w rest hw
    have ht := Option.some.inj hu
    subst ht
    rw [hw] at hinv
    simp only [List.length_cons] at hinv
    have hrest : rest = [] := List.eq_nil_of_length_eq_zero (by omega)
    subst hrest
    simp [SslWsSession.on_write, SslWsSession.do_read]
    omega

/-- Witness for C7, amended: one round of the request loop, a read of two bytes and the
write of the response. -/
theorem request_loop_single_outstanding_witness :
    ∃ t, (SslWsSession.opened []).steps rejectingEnv
        [Event.readDone none [110, 111], Event.writeDone none] = some t ∧
      t.pendingReads ≤ 1 ∧ t.pendingWrites.length ≤ 1 :=
  ⟨_, rfl, (request_loop_single_outstanding rejectingEnv []
    [Event.readDone none [110, 111], Event.writeDone none] _ (by decide) rfl).1,
    (request_loop_single_outstanding rejectingEnv []
    [Event.readDone none [110, 111], Event.writeDone none] _ (by decide) rfl).2.1⟩

/-- C8: the upgrader makes and runs a session exactly when the handshake completed without
error, the upgrade read (body limit 10000) completed without error, which needs a body
of at most 10000 bytes, and the request is a WebSocket upgrade.  The handshake handler
alone never makes a session.  In every case no handshake or read of the upgrader remains
outstanding, and whenever no session was made the upgrader is Closed. -/
theorem upgrader_open_only_on_success (b : Bytes) (hs : Ec) (bytes_used : Nat)
    (rd : UpgradeRead) :
    (SslWsUpgrader.life b hs bytes_used rd).session =
      (if hs = none ∧ rd.failure = none ∧ rd.request.body.length ≤ 10000 ∧
          rd.request.is_upgrade = true
        then some (SslWsSession.new rd.residual).run else none) ∧
    (SslWsUpgrader.handshakeDone hs bytes_used (SslWsUpgrader.new b).run).bind
      (fun u => u.session) = none ∧
    (SslWsUpgrader.life b hs bytes_used rd).pendingHandshake = false ∧
    (SslWsUpgrader.life b hs bytes_used rd).pendingRead = false ∧
    (SslWsUpgrader.life b hs bytes_used rd).isClosed =
      !(SslWsUpgrader.life b hs bytes_used rd).session.isSome := by
  cases hs with
  | some e =>
    simp [SslWsUpgrader.life, SslWsUpgrader.handshakeDone, SslWsUpgrader.run,
      SslWsUpgrader.new, SslWsUpgrader.on_handshake, SslWsUpgrader.wsFail,
      SslWsUpgrader.readDone, SslWsUpgrader.isClosed]
  | none =>
    obtain ⟨⟨up, body⟩, failure, residual⟩ := rd
    cases failure with
    | some e =>
      by_cases hE : e = ErrorCode.end_of_stream <;>
      simp [SslWsUpgrader.life, SslWsUpgrader.handshakeDone, SslWsUpgrader.run,
        SslWsUpgrader.new, SslWsUpgrader.on_handshake, SslWsUpgrader.wsFail,
        SslWsUpgrader.readDone, SslWsUpgrader.isClosed, SslWsUpgrader.do_upgrade,
        http_read_result, SslWsUpgrader.on_upgrade, hE]
    | none =>
      by_cases hlen : 10000 < body.length
      · have hle : ¬ body.length ≤ 10000 := by omega
        cases up <;>
        simp [SslWsUpgrader.life, SslWsUpgrader.handshakeDone, SslWsUpgrader.run,
          SslWsUpgrader.new, SslWsUpgrader.on_handshake, SslWsUpgrader.wsFail,
          SslWsUpgrader.readDone, SslWsUpgrader.isClosed, SslWsUpgrader.do_upgrade,
          http_read_result, SslWsUpgrader.on_upgrade, hlen, hle]
      · have hle : body.length ≤ 10000 := by omega
        cases up <;>
        simp [SslWsUpgrader.life, SslWsUpgrader.handshakeDone, SslWsUpgrader.run,
          SslWsUpgrader.new, SslWsUpgrader.on_handshake, SslWsUpgrader.wsFail,
          SslWsUpgrader.readDone, SslWsUpgrader.isClosed, SslWsUpgrader.do_upgrade,
          http_read_result, SslWsUpgrader.on_upgrade, hlen, hle]

/-- C9 (the code at the failing inputs): whatever residual buffer `b` is passed to the
constructor of `SslWsSession`, the read buffer of the constructed session is empty, also
when the session enters Open and when it is made by `on_upgrade`. -/
theorem session_drops_residual_buffer (b : Bytes) :
    (SslWsSession.new b).buffer_ = [] ∧
    (SslWsSession.opened b).buffer_ = [] ∧
    (SslWsUpgrader.life [] none 0
      { request := { is_upgrade := true, body := [] }, failure := none,
        residual := b }).session.map (fun s => s.buffer_) = some [] := by
  refine ⟨rfl, rfl, rfl⟩

/-! ## Theorems : isOffer and isOfferHex -/

/-- The digit table decodes each upper-case digit to its value. -/
theorem hexDigit_hexChar (n : Nat) (h : n < 16) : hexDigit (hexChar n) = some n := by
  interval_cases n <;> decide

/-- The test on `offer_bytes`: it holds exactly when the bytes are 0x00 and 0x6f. -/
theorem offer_bytes_eq (b1 b2 : UInt8) :
    (toShort ((b1.toNat <<< 8) ||| b2.toNat) == 0x006f) = decide (b1 = 0 ∧ b2 = 0x6f) := by
  have h1 := UInt8.toNat_lt b1
  have h2 := UInt8.toNat_lt b2
  have hor : (b1.toNat <<< 8) ||| b2.toNat = 2 ^ 8 * b1.toNat + b2.toNat := by
    rw [Nat.shiftLeft_eq, Nat.mul_comm, ← Nat.mul_add_lt_is_or h2]
  rw [hor]
  have e1 : b1 = 0 ↔ b1.toNat = 0 := by
    constructor
    · intro h; rw [h]; rfl
    · intro h; exact UInt8.ext h
  have e2 : b2 = 0x6f ↔ b2.toNat = 111 := by
    constructor
    · intro h; rw [h]; rfl
    · intro h; exact UInt8.ext h
  unfold toShort
  by_cases hc : b1 = 0 ∧ b2 = 0x6f
  · obtain ⟨ha, hb⟩ := hc
    subst ha hb
    decide
  · have hd : decide (b1 = 0 ∧ b2 = 0x6f) = false := by simpa using hc
    rw [hd]
    have hn : ¬ (b1.toNat = 0 ∧ b2.toNat = 111) := fun hh => hc ⟨e1.2 hh.1, e2.2 hh.2⟩
    simp only [beq_eq_false_iff_ne, ne_eq]
    split <;> omega

/-- C10 (the code at the failing inputs): for every byte string `x` of length at least 3,
the blob that `isOfferHex` decodes from the first 4 characters of the hexadecimal
encoding of `x` has 2 bytes, so the read of index 2 is outside it and `isOfferHex` has
no defined result; whereas `isOffer x` is defined and is true exactly when `x[1]` is
0x00 and `x[2]` is 0x6f. -/
theorem isOfferHex_out_of_bounds (x : Bytes) (h : 3 ≤ x.length) :
    isOfferHex (strHex x) = none ∧
    (∃ b0 b1, strUnHex 4 ((strHex x).take 4) = some [b0, b1]) ∧
    isOffer x = some (decide (x[1]? = some 0 ∧ x[2]? = some 0x6f)) := by
  match x, h with
  | b0 :: b1 :: b2 :: rest, _ =>
    have d0 := hexDigit_hexChar (b0.toNat / 16) (by have := UInt8.toNat_lt b0; omega)
    have d1 := hexDigit_hexChar (b0.toNat % 16) (by omega)
    have d2 := hexDigit_hexChar (b1.toNat / 16) (by have := UInt8.toNat_lt b1; omega)
    have d3 := hexDigit_hexChar (b1.toNat % 16) (by omega)
    have hblob : strUnHex 4 ((strHex (b0 :: b1 :: b2 :: rest)).take 4) =
        some [UInt8.ofNat (((b0.toNat / 16) <<< 4) ||| (b0.toNat % 16)),
              UInt8.ofNat (((b1.toNat / 16) <<< 4) ||| (b1.toNat % 16))] := by
      simp [strUnHex, strHex, strUnHexPairs, d0, d1, d2, d3]
    refine ⟨?_, ⟨_, _, hblob⟩, ?_⟩
    · unfold isOfferHex
      have hlen : ¬ (strHex (b0 :: b1 :: b2 :: rest)).length < 4 := by
        simp [strHex]
      rw [if_neg hlen, hblob]
      rfl
    · simp [isOffer, offer_bytes_eq]

/-- Witness for C10: the bytes 11 00 6F, the start of a serialised offer. -/
theorem isOfferHex_out_of_bounds_witness :
    isOfferHex (strHex [0x11, 0x00, 0x6f]) = none ∧ isOffer [0x11, 0x00, 0x6f] = some true :=
  ⟨(isOfferHex_out_of_bounds [0x11, 0x00, 0x6f] (by decide)).1,
   (isOfferHex_out_of_bounds [0x11, 0x00, 0x6f] (by decide)).2.2⟩

end Clio
